/-
Verification of the rp-plot land-survey calculator core against its
natural-language specification.

Shallow embedding conventions:
* JavaScript numbers are modelled by `JsNum`: an idealized IEEE value that is
  either a finite real, NaN, +Infinity or -Infinity.  Finite arithmetic is
  exact real arithmetic (float rounding is not modelled).
* `Number.prototype.toFixed(3)` followed by `parseFloat` is modelled as
  rounding to 3 decimal places (ECMA toFixed picks the larger candidate on
  ties, which is Mathlib's `round`, i.e. `⌊x + 1/2⌋`).
* Stateful classes become structures with explicit state-passing operations.
* The only falsy JavaScript string is `""`.
-/
import Mathlib

namespace RpPlot

/-- An idealized JavaScript number: finite real, NaN, or a signed infinity. -/
inductive JsNum where
  | fin (r : ℝ)
  | nan
  | inf
  | ninf

namespace JsNum

/-- JavaScript addition on idealized numbers. -/
noncomputable def jadd : JsNum → JsNum → JsNum
  | fin a, fin b => fin (a + b)
  | nan, _ => nan
  | _, nan => nan
  | inf, ninf => nan
  | ninf, inf => nan
  | inf, _ => inf
  | _, inf => inf
  | ninf, _ => ninf
  | _, ninf => ninf

/-- JavaScript subtraction on idealized numbers. -/
noncomputable def jsub : JsNum → JsNum → JsNum
  | fin a, fin b => fin (a - b)
  | nan, _ => nan
  | _, nan => nan
  | inf, inf => nan
  | ninf, ninf => nan
  | inf, _ => inf
  | _, inf => ninf
  | ninf, _ => ninf
  | _, ninf => inf

/-- JavaScript multiplication on idealized numbers. -/
noncomputable def jmul : JsNum → JsNum → JsNum
  | fin a, fin b => fin (a * b)
  | nan, _ => nan
  | _, nan => nan
  | inf, inf => inf
  | inf, ninf => ninf
  | ninf, inf => ninf
  | ninf, ninf => inf
  | inf, fin b => if 0 < b then inf else if b < 0 then ninf else nan
  | fin a, inf => if 0 < a then inf else if a < 0 then ninf else nan
  | ninf, fin b => if 0 < b then ninf else if b < 0 then inf else nan
  | fin a, ninf => if 0 < a then ninf else if a < 0 then inf else nan

/-- Division of a JavaScript number by a positive finite constant
(the code only divides by the literals 2 and 435.6). -/
noncomputable def jdivPos : JsNum → ℝ → JsNum
  | fin a, c => fin (a / c)
  | nan, _ => nan
  | inf, _ => inf
  | ninf, _ => ninf

/-- `Math.hypot(a, b)`: +Infinity if either argument is infinite, NaN if
either is NaN (and none infinite), else the exact Euclidean norm. -/
noncomputable def jhypot : JsNum → JsNum → JsNum
  | inf, _ => inf
  | ninf, _ => inf
  | _, inf => inf
  | _, ninf => inf
  | nan, _ => nan
  | _, nan => nan
  | fin a, fin b => fin (Real.sqrt (a * a + b * b))

/-- `parseFloat(x.toFixed(3))`: rounding a finite value to 3 decimal places;
NaN and the infinities are mapped to themselves (`"NaN"`/`"Infinity"` strings
parse back to the same values). -/
noncomputable def jround3 : JsNum → JsNum
  | fin a => fin ((round (a * 1000) : ℤ) / 1000)
  | nan => nan
  | inf => inf
  | ninf => ninf

end JsNum

/-- A parsed coordinate point `{x, y}` as used by the calculation engine. -/
structure Point where
  x : JsNum
  y : JsNum

/-- `dist(a, b) = Math.hypot(b.x - a.x, b.y - a.y)` from calculations.js. -/
noncomputable def dist (a b : Point) : JsNum :=
  JsNum.jhypot (JsNum.jsub b.x a.x) (JsNum.jsub b.y a.y)

/-- The aggregate produced by `calculateMeasurements`. -/
structure Calc where
  leftDistance : JsNum
  rightDistance : JsNum
  avgWidth : JsNum
  length : JsNum
  area : JsNum
  areaDecimal : JsNum

/-- The all-zero aggregate that `calculateMeasurements` starts from. -/
def zeroCalc : Calc :=
  ⟨JsNum.fin 0, JsNum.fin 0, JsNum.fin 0, JsNum.fin 0, JsNum.fin 0, JsNum.fin 0⟩

/-- Midpoint of two points, as computed inline in `calculateMeasurements`. -/
noncomputable def midpoint (a b : Point) : Point :=
  ⟨JsNum.jdivPos (JsNum.jadd a.x b.x) 2, JsNum.jdivPos (JsNum.jadd a.y b.y) 2⟩

/-- `calculateMeasurements(leftPoints, rightPoints)` from calculations.js.
The sequential `if (length >= 2)` guards of the source are rendered as a
four-way match on whether each side has at least two points; each side's
distance is computed from its first two points whenever that side has at
least two, and the width/length/area block runs only when both do. -/
noncomputable def calculateMeasurements (leftPoints rightPoints : List Point) : Calc :=
  match leftPoints, rightPoints with
  | a1 :: a2 :: _, b1 :: b2 :: _ =>
    let leftDistance := dist a1 a2
    let rightDistance := dist b1 b2
    let avgWidth := JsNum.jdivPos (JsNum.jadd leftDistance rightDistance) 2
    let leftMidpoint := midpoint a1 a2
    let rightMidpoint := midpoint b1 b2
    let len := dist leftMidpoint rightMidpoint
    let area := JsNum.jmul (JsNum.jmul avgWidth len) (JsNum.fin 10.7639)
    { leftDistance := leftDistance, rightDistance := rightDistance,
      avgWidth := avgWidth, length := len, area := area,
      areaDecimal := JsNum.jround3 (JsNum.jdivPos area 435.6) }
  | a1 :: a2 :: _, _ => { zeroCalc with leftDistance := dist a1 a2 }
  | _, b1 :: b2 :: _ => { zeroCalc with rightDistance := dist b1 b2 }
  | _, _ => zeroCalc

/-! ## Measurement entity (main-enhanced.js, `class Measurement`) -/

/-- A JavaScript value as far as the `typeof v !== 'number'` guards of
`Measurement.addPoint`/`updatePoint` can observe it: either a number
(possibly NaN or infinite) or some non-number value. -/
inductive JsVal where
  | num (n : JsNum)
  | other

/-- Whether a value passes the `typeof v === 'number'` test.  NaN and the
infinities are numbers in JavaScript, so they pass. -/
def JsVal.isNumber : JsVal → Bool
  | .num _ => true
  | .other => false

/-- A raw point argument `{x, y}` handed to `addPoint`/`updatePoint` before
validation: the coordinates are arbitrary JavaScript values. -/
structure RawPoint where
  x : JsVal
  y : JsVal

/-- The mutable fields of a `Measurement` that the point operations touch
(id/name/notes/creation timestamp never change there and are omitted). -/
structure Measurement where
  leftPoints : List Point
  rightPoints : List Point
  calculations : Calc
  updatedAt : String

namespace Measurement

/-- `Measurement.addPoint(side, point)`: validates the side string and that
both coordinates are number-typed, then pushes the point on the chosen side,
recalculates and stamps `updatedAt` (the `now` argument models
`new Date().toISOString()`).  Returns the JS boolean result paired with the
resulting object state; a `false` result leaves the measurement unchanged. -/
noncomputable def addPoint (m : Measurement) (side : String)
    (point : Option RawPoint) (now : String) : Bool × Measurement :=
  if side ≠ "left" ∧ side ≠ "right" then (false, m)
  else
    match point with
    | none => (false, m)
    | some p =>
      match p.x, p.y with
      | .num px, .num py =>
        let q : Point := ⟨px, py⟩
        let lp := if side = "left" then m.leftPoints ++ [q] else m.leftPoints
        let rp := if side = "left" then m.rightPoints else m.rightPoints ++ [q]
        (true, { m with leftPoints := lp, rightPoints := rp,
                        calculations := calculateMeasurements lp rp,
                        updatedAt := now })
      | _, _ => (false, m)

/-- `Measurement.updatePoint(side, index, newPoint)`: validates the side,
then the index bounds against the chosen side's array, then that both
coordinates are number-typed; on success replaces the point at `index`,
recalculates and stamps `updatedAt`. -/
noncomputable def updatePoint (m : Measurement) (side : String) (index : ℤ)
    (point : Option RawPoint) (now : String) : Bool × Measurement :=
  if side ≠ "left" ∧ side ≠ "right" then (false, m)
  else
    let arr := if side = "left" then m.leftPoints else m.rightPoints
    if index < 0 ∨ (arr.length : ℤ) ≤ index then (false, m)
    else
      match point with
      | none => (false, m)
      | some p =>
        match p.x, p.y with
        | .num px, .num py =>
          let q : Point := ⟨px, py⟩
          let lp := if side = "left" then m.leftPoints.set index.toNat q else m.leftPoints
          let rp := if side = "left" then m.rightPoints else m.rightPoints.set index.toNat q
          (true, { m with leftPoints := lp, rightPoints := rp,
                          calculations := calculateMeasurements lp rp,
                          updatedAt := now })
        | _, _ => (false, m)

end Measurement

/-! ## Coordinate parsing (`parseXY` in calculations.js)

Parsing is modelled computably: the value of a finite decimal literal is an
exact rational, so the parser produces a `QNum` (rational, NaN or ±Infinity)
rather than an idealized real. -/

/-- An unnormalized decimal fraction `num / den`, the exact value of a finite
decimal literal.  (Kept unreduced so that the parser is a purely structural
computation; `Frac.toRat` interprets it.) -/
structure Frac where
  num : ℤ
  den : ℕ
deriving DecidableEq

/-- The rational value of a decimal fraction. -/
def Frac.toRat (f : Frac) : ℚ := (f.num : ℚ) / (f.den : ℚ)

/-- The result value of `parseFloat`: an exact decimal fraction for finite
literals, NaN when no numeric prefix exists, or a signed infinity for
`"Infinity"`. -/
inductive QNum where
  | q (v : Frac)
  | qnan
  | qinf
  | qninf
deriving DecidableEq

/-- Numeric value of a digit string, most significant first. -/
def digitsToNat (ds : List Char) : ℕ :=
  ds.foldl (fun a c => 10 * a + (c.toNat - 48)) 0

/-- `String.prototype.split(',')` on the character list: cut at every comma
(an empty string yields one empty part, like JavaScript). -/
def splitComma : List Char → List Char → List (List Char)
  | [], acc => [acc.reverse]
  | c :: rest, acc =>
    if c = ',' then acc.reverse :: splitComma rest []
    else splitComma rest (c :: acc)

/-- `String.prototype.trim()`: strip whitespace from both ends. -/
def jsTrim (cs : List Char) : List Char :=
  ((cs.dropWhile Char.isWhitespace).reverse.dropWhile Char.isWhitespace).reverse

/-- ECMAScript `parseFloat`: skip leading whitespace, then read the longest
prefix of the form `[+-]? (Infinity | digits ['.' digits*]? | '.' digits+)
([eE] [+-]? digits+)?`; NaN when no such prefix exists.  Trailing garbage
after a valid prefix is ignored (`parseFloat("5x") === 5`). -/
def jsParseFloat (s : List Char) : QNum :=
  let cs := s.dropWhile Char.isWhitespace
  let signNeg : Bool := cs.head? = some '-'
  let cs1 := match cs with
    | '+' :: r => r
    | '-' :: r => r
    | _ => cs
  if cs1.take 8 = "Infinity".data then
    if signNeg then QNum.qninf else QNum.qinf
  else
    let intDs := cs1.takeWhile Char.isDigit
    let rest1 := cs1.drop intDs.length
    let fracDs := match rest1 with
      | '.' :: r => r.takeWhile Char.isDigit
      | _ => []
    let rest2 := match rest1 with
      | '.' :: r => r.drop fracDs.length
      | _ => rest1
    if intDs.isEmpty ∧ fracDs.isEmpty then QNum.qnan
    else
      let k := fracDs.length
      let mantissa : Frac :=
        ⟨(digitsToNat intDs : ℤ) * 10 ^ k + (digitsToNat fracDs : ℤ), 10 ^ k⟩
      let expVal : ℤ :=
        match rest2 with
        | 'e' :: r => expDigits r
        | 'E' :: r => expDigits r
        | _ => 0
      let v : Frac :=
        if 0 ≤ expVal then ⟨mantissa.num * 10 ^ expVal.toNat, mantissa.den⟩
        else ⟨mantissa.num, mantissa.den * 10 ^ (-expVal).toNat⟩
      QNum.q (if signNeg then ⟨-v.num, v.den⟩ else v)
where
  /-- Value of an optionally signed exponent digit string; 0 when the
  exponent part is malformed (it is then not part of the literal). -/
  expDigits (r : List Char) : ℤ :=
    let (eneg, r1) : Bool × List Char := match r with
      | '+' :: t => (false, t)
      | '-' :: t => (true, t)
      | _ => (false, r)
    let eds := r1.takeWhile Char.isDigit
    if eds.isEmpty then 0
    else if eneg then -(digitsToNat eds : ℤ) else (digitsToNat eds : ℤ)

/-- `isNaN` on a parse result. -/
def QNum.isNaN : QNum → Bool
  | .qnan => true
  | _ => false

/-- A parsed `{x, y}` pair as returned by `parseXY`. -/
structure QPoint where
  x : QNum
  y : QNum
deriving DecidableEq

/-- `parseXY(value)` from calculations.js: null for a falsy (empty) string,
null unless splitting on `','` yields exactly two parts, null if either
part's trimmed `parseFloat` is NaN, else the point of the two values. -/
def parseXY (value : String) : Option QPoint :=
  if value.data.isEmpty then none
  else
    match splitComma value.data [] with
    | [p0, p1] =>
      let x := jsParseFloat (jsTrim p0)
      let y := jsParseFloat (jsTrim p1)
      if x.isNaN ∨ y.isNaN then none else some ⟨x, y⟩
    | _ => none

/-- Modelled from the spec: the token grammar the spec claims `parsePoint`
accepts, "decimal, optional sign, optional fractional part" — an optional
sign, at least one digit, optionally followed by `'.'` and further digits.
(Used only to compare the spec's wording with the code's behavior.) -/
def specNumericToken (s : String) : Bool :=
  let cs := match s.data with
    | '+' :: r => r
    | '-' :: r => r
    | cs => cs
  let intDs := cs.takeWhile Char.isDigit
  let rest := cs.drop intDs.length
  !intDs.isEmpty &&
    (rest.isEmpty ||
      (match rest with
       | '.' :: fr => fr.all Char.isDigit
       | _ => false))

/-! ## Undo/Redo manager (src/unnamed, `class UndoRedoManager`)

Pure state-passing model of the history stack.  Snapshots are an arbitrary
type `α`: the JS `JSON.parse(JSON.stringify(state))` deep copy is the
identity on the immutable values of the model.  Listeners only observe state
and are omitted. -/

/-- One history entry `{state, action, timestamp}`. -/
structure HistoryEntry (α : Type) where
  state : α
  action : String
  timestamp : ℤ
deriving DecidableEq

/-- The fields of `UndoRedoManager` (listeners omitted). -/
structure UndoRedoManager (α : Type) where
  history : List (HistoryEntry α)
  currentIndex : ℤ
  maxHistory : ℕ
  isEnabled : Bool
deriving DecidableEq

namespace UndoRedoManager

/-- `new UndoRedoManager(maxHistory)` (default 50). -/
def mk' (α : Type) (maxHistory : ℕ) : UndoRedoManager α :=
  ⟨[], -1, maxHistory, true⟩

/-- `canUndo()`: the cursor is strictly positive. -/
def canUndo (m : UndoRedoManager α) : Bool :=
  0 < m.currentIndex

/-- `canRedo()`: the cursor is strictly before the tail. -/
def canRedo (m : UndoRedoManager α) : Bool :=
  m.currentIndex < (m.history.length : ℤ) - 1

/-- `push(state, action)`: when enabled, drop the entries after the cursor,
append a deep copy of the snapshot, then either evict the oldest entry
(leaving the cursor in place) if the bound is exceeded or advance the
cursor.  `timestamp` models `Date.now()`. -/
def push (m : UndoRedoManager α) (state : α) (action : String)
    (timestamp : ℤ) : UndoRedoManager α :=
  if ¬ m.isEnabled then m
  else
    let h1 := if m.currentIndex < (m.history.length : ℤ) - 1 then
        m.history.take (m.currentIndex + 1).toNat
      else m.history
    let h2 := h1 ++ [⟨state, action, timestamp⟩]
    if m.maxHistory < h2.length then
      { m with history := h2.drop 1 }
    else
      { m with history := h2, currentIndex := m.currentIndex + 1 }

/-- `undo()`: null without moving when `canUndo()` fails, else decrement the
cursor and return the entry at the new cursor. -/
def undo (m : UndoRedoManager α) :
    Option (HistoryEntry α) × UndoRedoManager α :=
  if ¬ m.canUndo then (none, m)
  else
    let i := m.currentIndex - 1
    (m.history[i.toNat]?, { m with currentIndex := i })

/-- `redo()`: null without moving when `canRedo()` fails, else increment the
cursor and return the entry at the new cursor. -/
def redo (m : UndoRedoManager α) :
    Option (HistoryEntry α) × UndoRedoManager α :=
  if ¬ m.canRedo then (none, m)
  else
    let i := m.currentIndex + 1
    (m.history[i.toNat]?, { m with currentIndex := i })

/-- `getCurrentState()`: the snapshot under the cursor, null when the cursor
is out of range. -/
def getCurrentState (m : UndoRedoManager α) : Option α :=
  if 0 ≤ m.currentIndex then (m.history[m.currentIndex.toNat]?).map (·.state)
  else none

/-- Push a whole list of snapshots in order (action `"UPDATE"`,
timestamp 0). -/
def pushAll (m : UndoRedoManager α) (ss : List α) : UndoRedoManager α :=
  ss.foldl (fun acc s => acc.push s "UPDATE" 0) m

/-- The history entry `pushAll` creates for a snapshot. -/
def mkEntry (s : α) : HistoryEntry α := ⟨s, "UPDATE", 0⟩

/-- Call `undo()` `n` times, collecting the returned entries in call order. -/
def undoTimes : ℕ → UndoRedoManager α →
    List (Option (HistoryEntry α)) × UndoRedoManager α
  | 0, m => ([], m)
  | n + 1, m =>
    let r := m.undo
    let rs := undoTimes n r.2
    (r.1 :: rs.1, rs.2)

/-- Call `redo()` `n` times, collecting the returned entries in call order. -/
def redoTimes : ℕ → UndoRedoManager α →
    List (Option (HistoryEntry α)) × UndoRedoManager α
  | 0, m => ([], m)
  | n + 1, m =>
    let r := m.redo
    let rs := redoTimes n r.2
    (r.1 :: rs.1, rs.2)

end UndoRedoManager

/-! ## State manager (StateManager.js) and persistence (PersistenceManager.js)

Settings objects are modelled as association lists of key/value pairs so
that JavaScript object spread (`{...a, ...b}`) keeps its shallow-merge
semantics.  Projects keep the fields of main-enhanced.js's `class Project`;
their measurements stay the raw payloads `Project.fromJSON` leaves in place. -/

/-- A primitive JSON settings value. -/
inductive SVal where
  | s (v : String)
  | b (v : Bool)
  | n (v : ℚ)
deriving DecidableEq

/-- A JavaScript object with primitive values, as an association list. -/
def JsObj : Type := List (String × SVal)

/-- First value bound to a key, if any. -/
def lookupKey (o : JsObj) (k : String) : Option SVal :=
  (o.find? (fun kv => kv.1 = k)).map (·.2)

/-- Object spread `{...base, ...upd}`: base keys keep their order and take
the updated value when present; keys only in `upd` are appended. -/
def objMerge (base upd : JsObj) : JsObj :=
  base.map (fun kv => (kv.1, (lookupKey upd kv.1).getD kv.2)) ++
    upd.filter (fun kv => lookupKey base kv.1 = none)

/-- `StateManager.getDefaultSettings()`. -/
def defaultSettings : JsObj :=
  [("defaultUnit", SVal.s "meters"), ("autoSave", SVal.b true),
   ("showGrid", SVal.b true), ("showLabels", SVal.b true),
   ("theme", SVal.s "light"), ("maxHistorySize", SVal.n 50)]

/-- The free-form metadata bag of a project. -/
structure Metadata where
  author : String
  tags : List String
  location : String

/-- `class Project` (main-enhanced.js): the persistent fields.  Measurements
are the raw measurement payloads (`Project.fromJSON` stores them without
conversion). -/
structure Project where
  id : String
  name : String
  description : String
  createdAt : String
  updatedAt : String
  measurements : List Measurement
  metadata : Metadata

/-- The JSON shape of a project as read by `Project.fromJSON` (metadata may
be absent). -/
structure ProjectData where
  id : String
  name : String
  description : String
  createdAt : String
  updatedAt : String
  measurements : List Measurement
  metadata : Option Metadata

/-- `Project.fromJSON(data)`: rebuild a project from its JSON shape,
defaulting a missing metadata bag. -/
def Project.fromJSON (d : ProjectData) : Project :=
  ⟨d.id, d.name, d.description, d.createdAt, d.updatedAt, d.measurements,
    d.metadata.getD ⟨"", [], ""⟩⟩

/-- The transient UI flags of the store. -/
structure UIState where
  selectedMeasurementId : Option String
  historyPanelOpen : Bool
  settingsPanelOpen : Bool

/-- The `state` object owned by `StateManager`. -/
structure SMState where
  currentProject : Option Project
  currentProjectId : Option String
  projects : List Project
  settings : JsObj
  ui : UIState

/-- The initial state built by the `StateManager` constructor (and by
`clearAll()`). -/
def initialSMState : SMState :=
  ⟨none, none, [], defaultSettings, ⟨none, false, false⟩⟩

/-- `validateProjectName(name, existingProjects)` from validation.js:
required, trimmed length in [3,50], case-insensitively unique.  Returns the
`valid` flag. -/
def validateProjectName (name : String) (existingProjects : List Project) : Bool :=
  if name = "" ∨ name.trim = "" then false
  else
    let trimmedName := name.trim
    if trimmedName.length < 3 then false
    else if 50 < trimmedName.length then false
    else if existingProjects.any
        (fun p => p.name.toLower = trimmedName.toLower) then false
    else true

/-- `Project.prototype.validate(existingProjects)`: name validation against
the other projects (itself excluded by id). -/
def Project.validate (p : Project) (existingProjects : List Project) : Bool :=
  validateProjectName p.name (existingProjects.filter (fun q => q.id ≠ p.id))

namespace SMState

/-- `StateManager.addProject(project)`: validate the name against the
existing projects, then append.  Returns the JS boolean result with the new
state. -/
def addProject (st : SMState) (p : Project) : Bool × SMState :=
  if ¬ p.validate st.projects then (false, st)
  else (true, { st with projects := st.projects ++ [p] })

/-- `StateManager.removeProject(projectId)`: not-found is a no-op returning
false; removing the current project clears the current-project pointer
before splicing the project out. -/
def removeProject (st : SMState) (projectId : String) : Bool × SMState :=
  match st.projects.findIdx? (fun p => p.id = projectId) with
  | none => (false, st)
  | some i =>
    let st1 := if st.currentProjectId = some projectId then
        { st with currentProject := none, currentProjectId := none }
      else st
    (true, { st1 with projects := st1.projects.eraseIdx i })

/-- `StateManager.getProject(projectId)`. -/
def getProject (st : SMState) (projectId : String) : Option Project :=
  st.projects.find? (fun p => p.id = projectId)

/-- `StateManager.setCurrentProject(projectId)`: a falsy id (null or the
empty string) clears the pointer and succeeds; otherwise the id must resolve
to an existing project. -/
def setCurrentProject (st : SMState) (projectId : Option String) : Bool × SMState :=
  match projectId with
  | none => (true, { st with currentProject := none, currentProjectId := none })
  | some id =>
    if id = "" then
      (true, { st with currentProject := none, currentProjectId := none })
    else
      match st.getProject id with
      | none => (false, st)
      | some p =>
        (true, { st with currentProject := some p, currentProjectId := some id })

/-- `StateManager.updateSettings(updates)`: shallow merge into the existing
settings object. -/
def updateSettings (st : SMState) (updates : JsObj) : SMState :=
  { st with settings := objMerge st.settings updates }

/-- `StateManager.clearAll()`. -/
def clearAll (_ : SMState) : SMState := initialSMState

end SMState

/-- The serialized snapshot handed to `StateManager.loadState` (each field
may be missing in the data). -/
structure LoadData where
  projects : List ProjectData
  settings : Option JsObj
  currentProjectId : Option String

/-- `StateManager.loadState(data)`: replace the projects, rebuild the
settings from the defaults merged with the loaded ones, and call
`setCurrentProject` only when the loaded id is truthy — a falsy loaded id
leaves the previous `currentProjectId`/`currentProject` fields in place. -/
def SMState.loadState (st : SMState) (data : LoadData) : SMState :=
  let st1 := { st with projects := data.projects.map Project.fromJSON }
  let st2 := { st1 with settings := objMerge defaultSettings (data.settings.getD []) }
  match data.currentProjectId with
  | some id => if id ≠ "" then (st2.setCurrentProject (some id)).2 else st2
  | none => st2

/-- The referential invariant of §3 of the spec: a non-null
`currentProjectId` resolves to a project in the collection. -/
def currentRefInvariant (st : SMState) : Prop :=
  ∀ id, st.currentProjectId = some id → ∃ p ∈ st.projects, p.id = id

/-! ### PersistenceManager.importAllData -/

/-- The `projects` field of an import document, as far as the code's
truthiness test and `Array.prototype.map` call can distinguish it: falsy
(absent, null, 0, empty string, false), truthy but not an array, or an
array of project payloads. -/
inductive PField where
  | falsy
  | nonArray
  | arr (ps : List ProjectData)

/-- Truthiness of the `projects` field (an empty array is truthy). -/
def PField.truthy : PField → Bool
  | .falsy => false
  | .nonArray => true
  | .arr _ => true

/-- Truthiness of the `version` field (modelled as an optional string; the
empty string is falsy). -/
def versionTruthy : Option String → Bool
  | none => false
  | some s => s ≠ ""

/-- The parsed import document. -/
structure ImportDoc where
  projects : PField
  version : Option String
  settings : Option JsObj

/-- How an import fails: the explicit `'Invalid backup file format'`
rejection, or the caught exception from calling `.map` on a non-array. -/
inductive ImportError where
  | invalidFormat
  | typeError
deriving DecidableEq

/-- `PersistenceManager.importAllData` (state-relevant part): reject when
`projects` or `version` is falsy; reject via the caught `TypeError` when
`projects` is not an array; otherwise assign the mapped projects directly
onto the state and shallow-merge the document settings (`data.settings ||
{}`) through `updateSettings`.  (`saveAll()` writes localStorage and is
outside the model; `currentProjectId` is never touched.) -/
def importAllData (st : SMState) (doc : ImportDoc) : Except ImportError SMState :=
  if ¬ doc.projects.truthy ∨ ¬ versionTruthy doc.version then
    .error .invalidFormat
  else
    match doc.projects with
    | .falsy => .error .invalidFormat
    | .nonArray => .error .typeError
    | .arr ps =>
      let projects := ps.map Project.fromJSON
      let settings := doc.settings.getD []
      let st1 := { st with projects := projects }
      .ok (st1.updateSettings settings)

/-! ## Theorems -/

/-- `Real.sqrt` of a literal perfect square. -/
lemma sqrt_of_sq (a b : ℝ) (ha : 0 ≤ a) (h : b = a ^ 2) : Real.sqrt b = a := by
  rw [h, Real.sqrt_sq ha]

/-- The aggregate `calculateMeasurements` returns on spec scenario 1
(left `[(0,0),(100,0)]`, right `[(0,50),(100,50)]`). -/
lemma calc_scenario1 :
    calculateMeasurements
      [⟨JsNum.fin 0, JsNum.fin 0⟩, ⟨JsNum.fin 100, JsNum.fin 0⟩]
      [⟨JsNum.fin 0, JsNum.fin 50⟩, ⟨JsNum.fin 100, JsNum.fin 50⟩] =
      ⟨JsNum.fin 100, JsNum.fin 100, JsNum.fin 100, JsNum.fin 50,
        JsNum.fin 53819.5, JsNum.fin 123.553⟩ := by
  have hs1 : Real.sqrt 10000 = 100 := sqrt_of_sq 100 _ (by norm_num) (by norm_num)
  have hs2 : Real.sqrt 2500 = 50 := sqrt_of_sq 50 _ (by norm_num) (by norm_num)
  have h3 : round ((134548750 : ℝ) / 1089) = (123553 : ℤ) := by
    rw [round_eq, Int.floor_eq_iff]
    constructor <;> norm_num
  simp only [calculateMeasurements, dist, midpoint, JsNum.jsub, JsNum.jadd,
    JsNum.jdivPos, JsNum.jhypot, JsNum.jmul, JsNum.jround3]
  norm_num [hs1, hs2, h3]

/-- C2 counterexample: on scenario 1 the code computes `avgWidth = 100` and
`length = 50`, not `avgWidth = 50` and `length = 100` as the claim states
(the spec scenario swaps the two values; its own formula
`avgWidth = (leftDistance + rightDistance)/2` gives 100 here). -/
theorem C2_counterexample :
    (calculateMeasurements
      [⟨JsNum.fin 0, JsNum.fin 0⟩, ⟨JsNum.fin 100, JsNum.fin 0⟩]
      [⟨JsNum.fin 0, JsNum.fin 50⟩, ⟨JsNum.fin 100, JsNum.fin 50⟩]).avgWidth ≠
        JsNum.fin 50 ∧
    (calculateMeasurements
      [⟨JsNum.fin 0, JsNum.fin 0⟩, ⟨JsNum.fin 100, JsNum.fin 0⟩]
      [⟨JsNum.fin 0, JsNum.fin 50⟩, ⟨JsNum.fin 100, JsNum.fin 50⟩]).length ≠
        JsNum.fin 100 := by
  rw [calc_scenario1]
  constructor <;> simp only [ne_eq, JsNum.fin.injEq] <;> norm_num

/-- C2 (amended): on left `[(0,0),(100,0)]`, right `[(0,50),(100,50)]` the
code returns `leftDistance = 100`, `rightDistance = 100`, `avgWidth = 100`,
`length = 50`, `area = 53819.5` sq ft and `areaDecimal = 123.553`
(under exact real arithmetic; ≈123.6 as the spec rounds it). -/
theorem C2_amended :
    calculateMeasurements
      [⟨JsNum.fin 0, JsNum.fin 0⟩, ⟨JsNum.fin 100, JsNum.fin 0⟩]
      [⟨JsNum.fin 0, JsNum.fin 50⟩, ⟨JsNum.fin 100, JsNum.fin 50⟩] =
      ⟨JsNum.fin 100, JsNum.fin 100, JsNum.fin 100, JsNum.fin 50,
        JsNum.fin 53819.5, JsNum.fin 123.553⟩ :=
  calc_scenario1

/-- C1 counterexample: with left `[(0,0),(3,4)]` and an empty right side, the
right side has fewer than 2 points yet the result is not all-zero — the code
still computes `leftDistance = 5` because each side's distance is guarded
only by that side's own length. -/
theorem C1_counterexample :
    ([] : List Point).length < 2 ∧
    (calculateMeasurements [⟨JsNum.fin 0, JsNum.fin 0⟩, ⟨JsNum.fin 3, JsNum.fin 4⟩]
      []).leftDistance = JsNum.fin 5 ∧
    (calculateMeasurements [⟨JsNum.fin 0, JsNum.fin 0⟩, ⟨JsNum.fin 3, JsNum.fin 4⟩]
      []).leftDistance ≠ JsNum.fin 0 := by
  have hs : Real.sqrt 25 = 5 := sqrt_of_sq 5 _ (by norm_num) (by norm_num)
  refine ⟨by norm_num, ?_, ?_⟩ <;>
    simp only [calculateMeasurements, dist, JsNum.jsub, JsNum.jhypot, zeroCalc] <;>
    norm_num [hs]

/-- C1 (amended): `calculateMeasurements` never throws (it is a total
function); it returns the all-zero aggregate when BOTH sides have fewer than
2 points; when either side has fewer than 2 points the width/length/area
fields are zero, and a side's distance is zero whenever THAT side has fewer
than 2 points (but is still computed when that side has 2 points even if the
other side is short). -/
theorem C1_amended (l r : List Point) :
    (l.length < 2 → r.length < 2 → calculateMeasurements l r = zeroCalc) ∧
    (l.length < 2 ∨ r.length < 2 →
      (calculateMeasurements l r).avgWidth = JsNum.fin 0 ∧
      (calculateMeasurements l r).length = JsNum.fin 0 ∧
      (calculateMeasurements l r).area = JsNum.fin 0 ∧
      (calculateMeasurements l r).areaDecimal = JsNum.fin 0) ∧
    (l.length < 2 → (calculateMeasurements l r).leftDistance = JsNum.fin 0) ∧
    (r.length < 2 → (calculateMeasurements l r).rightDistance = JsNum.fin 0) := by
  rcases l with _ | ⟨a1, _ | ⟨a2, lt⟩⟩ <;> rcases r with _ | ⟨b1, _ | ⟨b2, rt⟩⟩ <;>
    simp [calculateMeasurements, zeroCalc]

/-- Witness for C1 (amended) at `l = []`, `r = []`. -/
theorem C1_witness :
    ([] : List Point).length < 2 ∧ calculateMeasurements [] [] = zeroCalc :=
  ⟨by norm_num, (C1_amended [] []).1 (by norm_num) (by norm_num)⟩

/-- C3: the aggregate depends only on the first two points of each side —
appending extra points to either sequence (both already having at least two
points) does not change the result. -/
theorem C3_first_two_points_only (l r el er : List Point)
    (hl : 2 ≤ l.length) (hr : 2 ≤ r.length) :
    calculateMeasurements (l ++ el) (r ++ er) = calculateMeasurements l r := by
  rcases l with _ | ⟨a1, _ | ⟨a2, lt⟩⟩ <;> rcases r with _ | ⟨b1, _ | ⟨b2, rt⟩⟩ <;>
    first
    | rfl
    | simp at hl hr

/-- Witness for C3 at concrete two-point sides with one extra left point. -/
theorem C3_witness :
    2 ≤ [(⟨JsNum.fin 0, JsNum.fin 0⟩ : Point), ⟨JsNum.fin 1, JsNum.fin 1⟩].length ∧
    calculateMeasurements
      ([⟨JsNum.fin 0, JsNum.fin 0⟩, ⟨JsNum.fin 1, JsNum.fin 1⟩] ++ [⟨JsNum.fin 7, JsNum.fin 7⟩])
      ([⟨JsNum.fin 0, JsNum.fin 0⟩, ⟨JsNum.fin 1, JsNum.fin 1⟩] ++ []) =
    calculateMeasurements
      [⟨JsNum.fin 0, JsNum.fin 0⟩, ⟨JsNum.fin 1, JsNum.fin 1⟩]
      [⟨JsNum.fin 0, JsNum.fin 0⟩, ⟨JsNum.fin 1, JsNum.fin 1⟩] :=
  ⟨by norm_num,
    C3_first_two_points_only _ _ _ _ (by norm_num) (by norm_num)⟩

/-- C7 counterexample: `"5x"` is not a numeric token in the spec's grammar
(sign, digits, optional fractional part), so by the claim
`parseXY "5x, 3"` should be the invalid sentinel `null` — but `parseFloat`
accepts the numeric prefix `"5"` and the code returns the point `{5, 3}`. -/
theorem C7_counterexample :
    specNumericToken "5x" = false ∧
    parseXY "5x, 3" = some ⟨QNum.q ⟨5, 1⟩, QNum.q ⟨3, 1⟩⟩ ∧
    parseXY "5x, 3" ≠ none := by decide

/-- C7 (amended): `parseXY` is total (a total function of its input); it
returns `null` for the empty string, whenever splitting on `','` does not
yield exactly two parts, and whenever either trimmed part has no numeric
prefix at all (`parseFloat` NaN); but a part whose numeric prefix is followed
by trailing garbage is accepted with the prefix's value.  Concretely:
`"100.5, 200.75"` parses to `{x:100.5, y:200.75}`, `"abc, 5"` is invalid,
and `""` yields no point. -/
theorem C7_amended :
    (∀ v : String, ¬ v.data.isEmpty → (splitComma v.data []).length ≠ 2 →
      parseXY v = none) ∧
    parseXY "100.5, 200.75" = some ⟨QNum.q ⟨1005, 10⟩, QNum.q ⟨20075, 100⟩⟩ ∧
    Frac.toRat ⟨1005, 10⟩ = 100.5 ∧ Frac.toRat ⟨20075, 100⟩ = 200.75 ∧
    parseXY "abc, 5" = none ∧
    parseXY "" = none ∧
    parseXY "1,2,3" = none ∧
    parseXY "5x, 3" = some ⟨QNum.q ⟨5, 1⟩, QNum.q ⟨3, 1⟩⟩ := by
  refine ⟨fun v h1 h2 => ?_, by decide, by norm_num [Frac.toRat],
    by norm_num [Frac.toRat], by decide, by decide, by decide, by decide⟩
  unfold parseXY
  rw [if_neg h1]
  rcases h : splitComma v.data [] with _ | ⟨p0, _ | ⟨p1, _ | ⟨p2, ps⟩⟩⟩ <;>
    (simp only [h]
     try exact absurd (by simp [h]) h2)

/-- Witness for C7 (amended) at `"1,2,3"`, which has three comma parts. -/
theorem C7_witness :
    ¬ ("1,2,3" : String).data.isEmpty ∧
    (splitComma ("1,2,3" : String).data []).length ≠ 2 ∧
    parseXY "1,2,3" = none :=
  ⟨by decide, by decide, C7_amended.1 "1,2,3" (by decide) (by decide)⟩

/-- C6 counterexample: `addPoint` and `updatePoint` guard only
`typeof v !== 'number'`, and NaN and the infinities are numbers in
JavaScript — so a point with NaN/Infinity coordinates is ACCEPTED (the call
returns true and the points change), contradicting the claim that every
non-finite coordinate is rejected with the measurement left unchanged. -/
theorem C6_counterexample :
    (Measurement.addPoint ⟨[], [], zeroCalc, "t0"⟩ "left"
      (some ⟨JsVal.num JsNum.nan, JsVal.num (JsNum.fin 0)⟩) "t1").1 = true ∧
    (Measurement.addPoint ⟨[], [], zeroCalc, "t0"⟩ "left"
      (some ⟨JsVal.num JsNum.nan, JsVal.num (JsNum.fin 0)⟩) "t1").2.leftPoints =
      [⟨JsNum.nan, JsNum.fin 0⟩] ∧
    (Measurement.updatePoint ⟨[⟨JsNum.fin 1, JsNum.fin 2⟩], [], zeroCalc, "t0"⟩
      "left" 0 (some ⟨JsVal.num JsNum.inf, JsVal.num JsNum.nan⟩) "t1").1 = true ∧
    (Measurement.updatePoint ⟨[⟨JsNum.fin 1, JsNum.fin 2⟩], [], zeroCalc, "t0"⟩
      "left" 0 (some ⟨JsVal.num JsNum.inf, JsVal.num JsNum.nan⟩) "t1").2.leftPoints =
      [⟨JsNum.inf, JsNum.nan⟩] := by
  refine ⟨?_, ?_, ?_, ?_⟩ <;> simp [Measurement.addPoint, Measurement.updatePoint]

/-- C6 (amended): `addPoint`/`updatePoint` accept any point whose
coordinates are number-typed JavaScript values — including NaN and
±Infinity — appending (resp. replacing) the point and recalculating; they
return false and leave the measurement unchanged exactly for a bad side, a
missing point, an out-of-range index (for `updatePoint`), or coordinates
that are not of number type. -/
theorem C6_amended (m : Measurement) (x y : JsNum) (now : String) (i : ℤ)
    (hi0 : 0 ≤ i) (hiL : i < (m.leftPoints.length : ℤ)) :
    (m.addPoint "left" (some ⟨JsVal.num x, JsVal.num y⟩) now).1 = true ∧
    (m.addPoint "left" (some ⟨JsVal.num x, JsVal.num y⟩) now).2.leftPoints =
      m.leftPoints ++ [⟨x, y⟩] ∧
    (m.addPoint "right" (some ⟨JsVal.num x, JsVal.num y⟩) now).1 = true ∧
    (m.addPoint "right" (some ⟨JsVal.num x, JsVal.num y⟩) now).2.rightPoints =
      m.rightPoints ++ [⟨x, y⟩] ∧
    (m.updatePoint "left" i (some ⟨JsVal.num x, JsVal.num y⟩) now).1 = true ∧
    (m.updatePoint "left" i (some ⟨JsVal.num x, JsVal.num y⟩) now).2.leftPoints =
      m.leftPoints.set i.toNat ⟨x, y⟩ ∧
    (∀ side p, (m.addPoint side p now).1 = false → (m.addPoint side p now).2 = m) ∧
    (∀ side j p, (m.updatePoint side j p now).1 = false →
      (m.updatePoint side j p now).2 = m) := by
  have hbound : ¬ (i < 0 ∨ (m.leftPoints.length : ℤ) ≤ i) := by omega
  refine ⟨by simp [Measurement.addPoint], by simp [Measurement.addPoint],
    by simp [Measurement.addPoint], by simp [Measurement.addPoint],
    by simp [Measurement.updatePoint, hbound],
    by simp [Measurement.updatePoint, hbound], ?_, ?_⟩
  · intro side p h
    by_cases hs : side ≠ "left" ∧ side ≠ "right"
    · simp [Measurement.addPoint, hs]
    · rcases p with _ | ⟨px, py⟩
      · simp [Measurement.addPoint, hs]
      · cases px <;> cases py <;>
          simp [Measurement.addPoint, hs] at h ⊢
  · intro side j p h
    by_cases hs : side ≠ "left" ∧ side ≠ "right"
    · simp [Measurement.updatePoint, hs]
    · by_cases hb : j < 0 ∨ (((if side = "left" then m.leftPoints else
          m.rightPoints).length : ℤ) ≤ j)
      · simp [Measurement.updatePoint, hs, hb]
      · rcases p with _ | ⟨px, py⟩
        · simp [Measurement.updatePoint, hs, hb]
        · cases px <;> cases py <;>
            simp [Measurement.updatePoint, hs, hb] at h ⊢

/-- Witness for C6 (amended): a one-point measurement, NaN x-coordinate,
index 0. -/
theorem C6_witness :
    (0 : ℤ) ≤ 0 ∧
    (0 : ℤ) < (([⟨JsNum.fin 1, JsNum.fin 2⟩] : List Point).length : ℤ) ∧
    (Measurement.addPoint ⟨[⟨JsNum.fin 1, JsNum.fin 2⟩], [], zeroCalc, "t0"⟩ "left"
      (some ⟨JsVal.num JsNum.nan, JsVal.num (JsNum.fin 0)⟩) "t1").1 = true :=
  ⟨le_refl 0, by norm_num,
    (C6_amended ⟨[⟨JsNum.fin 1, JsNum.fin 2⟩], [], zeroCalc, "t0"⟩ JsNum.nan
      (JsNum.fin 0) "t1" 0 (le_refl 0) (by norm_num)).1⟩

/-- C8: demonstration of the code bug at a concrete failing input.  In a
state holding one project `"p1"` that is current (the invariant holds),
`removeProject` does clear the pointer as claimed — but
`loadState({projects: [], currentProjectId: null})` replaces the project
collection while leaving the stale `currentProjectId = "p1"` in place
(the code calls `setCurrentProject` only for a truthy loaded id), so the
referential invariant is broken after the load. -/
theorem C8_loadState_breaks_invariant :
    currentRefInvariant
      ⟨some ⟨"p1", "Alpha Site", "", "c", "u", [], ⟨"", [], ""⟩⟩, some "p1",
        [⟨"p1", "Alpha Site", "", "c", "u", [], ⟨"", [], ""⟩⟩],
        defaultSettings, ⟨none, false, false⟩⟩ ∧
    (SMState.removeProject
      ⟨some ⟨"p1", "Alpha Site", "", "c", "u", [], ⟨"", [], ""⟩⟩, some "p1",
        [⟨"p1", "Alpha Site", "", "c", "u", [], ⟨"", [], ""⟩⟩],
        defaultSettings, ⟨none, false, false⟩⟩ "p1").2.currentProjectId = none ∧
    (SMState.loadState
      ⟨some ⟨"p1", "Alpha Site", "", "c", "u", [], ⟨"", [], ""⟩⟩, some "p1",
        [⟨"p1", "Alpha Site", "", "c", "u", [], ⟨"", [], ""⟩⟩],
        defaultSettings, ⟨none, false, false⟩⟩
      ⟨[], none, none⟩).currentProjectId = some "p1" ∧
    (SMState.loadState
      ⟨some ⟨"p1", "Alpha Site", "", "c", "u", [], ⟨"", [], ""⟩⟩, some "p1",
        [⟨"p1", "Alpha Site", "", "c", "u", [], ⟨"", [], ""⟩⟩],
        defaultSettings, ⟨none, false, false⟩⟩
      ⟨[], none, none⟩).projects = [] ∧
    ¬ currentRefInvariant
      (SMState.loadState
        ⟨some ⟨"p1", "Alpha Site", "", "c", "u", [], ⟨"", [], ""⟩⟩, some "p1",
          [⟨"p1", "Alpha Site", "", "c", "u", [], ⟨"", [], ""⟩⟩],
          defaultSettings, ⟨none, false, false⟩⟩
        ⟨[], none, none⟩) := by
  refine ⟨?_, ?_, rfl, rfl, ?_⟩
  · intro id h
    simp only [Option.some.injEq] at h
    exact ⟨⟨"p1", "Alpha Site", "", "c", "u", [], ⟨"", [], ""⟩⟩, by simp, h⟩
  · simp [SMState.removeProject]
  · intro h
    obtain ⟨p, hp, _⟩ := h "p1" rfl
    simp [SMState.loadState] at hp

/-- C9 counterexample: a shape-valid import document with `projects: []`,
a version, and NO settings key leaves the pre-existing settings in place
(`updateSettings` shallow-merges `{}`), so a valid import does NOT fully
replace the stored settings as the claim states. -/
theorem C9_counterexample :
    ∃ st1, importAllData
        ⟨none, none, [], [("theme", SVal.s "dark")], ⟨none, false, false⟩⟩
        ⟨PField.arr [], some "1.0.0", none⟩ = Except.ok st1 ∧
      st1.settings = [("theme", SVal.s "dark")] ∧
      [("theme", SVal.s "dark")] ≠ ([] : JsObj) := by
  refine ⟨_, rfl, ?_, by simp⟩
  simp [importAllData, SMState.updateSettings, objMerge, lookupKey]

/-- C9 (amended): `importAllData` validates the document before touching
state: a falsy `projects` or `version` is rejected as invalid format, a
truthy non-array `projects` is rejected via the caught exception from
`.map`, and in both cases the state is unchanged (no state is produced).  A
valid import fully replaces the project collection, but the imported
settings are SHALLOW-MERGED into the existing settings via
`updateSettings` (imported keys win, missing keys keep their old values),
and `currentProjectId` is not touched. -/
theorem C9_amended (st : SMState) (doc : ImportDoc) :
    ((doc.projects.truthy = false ∨ versionTruthy doc.version = false) →
      importAllData st doc = Except.error ImportError.invalidFormat) ∧
    (doc.projects = PField.nonArray → versionTruthy doc.version = true →
      importAllData st doc = Except.error ImportError.typeError) ∧
    (∀ ps, doc.projects = PField.arr ps → versionTruthy doc.version = true →
      importAllData st doc = Except.ok
        { st with projects := ps.map Project.fromJSON,
                  settings := objMerge st.settings (doc.settings.getD []) }) := by
  refine ⟨?_, ?_, ?_⟩
  · intro h
    rcases h with h | h <;>
      simp [importAllData, h]
  · intro hp hv
    simp [importAllData, hp, hv, PField.truthy]
  · intro ps hp hv
    simp [importAllData, hp, hv, PField.truthy, SMState.updateSettings]

/-- Witness for C9 (amended): importing a document with one empty project
list and a version into the initial state. -/
theorem C9_witness :
    (PField.arr [] = PField.arr []) ∧
    versionTruthy (some "1.0.0") = true ∧
    importAllData initialSMState ⟨PField.arr [], some "1.0.0", none⟩ =
      Except.ok
        { initialSMState with
            projects := ([] : List ProjectData).map Project.fromJSON,
            settings := objMerge initialSMState.settings
              ((none : Option JsObj).getD []) } :=
  ⟨rfl, by decide,
    (C9_amended initialSMState ⟨PField.arr [], some "1.0.0", none⟩).2.2 []
      rfl (by decide)⟩

/-! ### Undo/Redo helper lemmas -/

namespace UndoRedoManager

/-- Pushing a snapshot after a batch push is the batch push of the longer
list. -/
lemma pushAll_concat (m : UndoRedoManager α) (ss : List α) (x : α) :
    pushAll m (ss ++ [x]) = (pushAll m ss).push x "UPDATE" 0 := by
  simp [pushAll]

/-- Closed form for filling a fresh manager: the history holds the last
`min ss.length maxH` snapshots and the cursor sits on the last entry. -/
lemma pushAll_mk' (maxH : ℕ) (ss : List α) :
    pushAll (mk' α maxH) ss =
      ⟨(ss.drop (ss.length - maxH)).map mkEntry,
        (min ss.length maxH : ℤ) - 1, maxH, true⟩ := by
  induction ss using List.reverseRecOn with
  | nil => simp [pushAll, mk']
  | append_singleton ss x ih =>
    rw [pushAll_concat, ih]
    simp only [push, Bool.not_true, List.length_map, List.length_drop,
      List.length_append, List.length_singleton]
    rw [if_neg (not_not_intro trivial)]
    split_ifs with htr hev hev
    · exact absurd htr (by omega)
    · exact absurd htr (by omega)
    · rw [UndoRedoManager.mk.injEq]
      simp only [List.length_map, List.length_drop] at hev
      refine ⟨?_, by omega, rfl, rfl⟩
      rcases Nat.eq_zero_or_pos maxH with hz | hpos
      · simp [hz]
      · have h1 : 1 ≤ (List.map mkEntry (ss.drop (ss.length - maxH))).length := by
          simp only [List.length_map, List.length_drop]
          omega
        have h2 : ss.length + 1 - maxH ≤ ss.length := by omega
        rw [List.drop_append_of_le_length h1, List.drop_append_of_le_length h2,
          List.map_append, ← List.map_drop, List.drop_drop,
          show ss.length - maxH + 1 = ss.length + 1 - maxH by omega]
        rfl
    · rw [UndoRedoManager.mk.injEq]
      simp only [List.length_map, List.length_drop] at hev
      refine ⟨?_, by omega, rfl, rfl⟩
      rw [show ss.length - maxH = 0 by omega, show ss.length + 1 - maxH = 0 by omega]
      simp [mkEntry]

/-- Running `undo()` `k` times from cursor `c` (with `k ≤ c < length`)
returns the entries at indices `c-1, c-2, …, c-k` and leaves the cursor at
`c - k`; the log itself is untouched. -/
lemma undoTimes_spec (es : List (HistoryEntry α)) (c mH : ℕ) (en : Bool)
    (k : ℕ) (hc : c < es.length) (hk : k ≤ c) :
    undoTimes k ⟨es, (c : ℤ), mH, en⟩ =
      (((es.take c).drop (c - k)).reverse.map some,
        ⟨es, ((c - k : ℕ) : ℤ), mH, en⟩) := by
  induction k generalizing c with
  | zero => simp [undoTimes]
  | succ k ih =>
    have hc0 : 0 < c := by omega
    have hstep : undo ⟨es, (c : ℤ), mH, en⟩ =
        (some (es.get ⟨c - 1, by omega⟩), ⟨es, ((c - 1 : ℕ) : ℤ), mH, en⟩) := by
      unfold undo canUndo
      rw [if_neg (by simp; omega), show ((c : ℤ) - 1) = ((c - 1 : ℕ) : ℤ) by omega]
      simp only [Int.toNat_natCast,
        List.getElem?_eq_getElem (show c - 1 < es.length by omega)]
      rfl
    unfold undoTimes
    rw [hstep]
    simp only []
    rw [ih (c - 1) (by omega) (by omega)]
    have htake : es.take c = es.take (c - 1) ++ [es.get ⟨c - 1, by omega⟩] := by
      conv_lhs => rw [show c = (c - 1) + 1 by omega]
      rw [List.take_succ, List.getElem?_eq_getElem (show c - 1 < es.length by omega)]
      rfl
    rw [htake, List.drop_append_of_le_length
      (by simp [List.length_take]; omega : c - (k + 1) ≤ (es.take (c - 1)).length)]
    rw [show c - 1 - k = c - (k + 1) by omega]
    simp [List.map_append]

/-- Running `redo()` `k` times from cursor `c` (with `c + k < length`)
returns the entries at indices `c+1, …, c+k` in order and leaves the cursor
at `c + k`; the log itself is untouched. -/
lemma redoTimes_spec (es : List (HistoryEntry α)) (c mH : ℕ) (en : Bool)
    (k : ℕ) (hck : c + k < es.length) :
    redoTimes k ⟨es, (c : ℤ), mH, en⟩ =
      (((es.drop (c + 1)).take k).map some,
        ⟨es, ((c + k : ℕ) : ℤ), mH, en⟩) := by
  induction k generalizing c with
  | zero => simp [redoTimes]
  | succ k ih =>
    have hstep : redo ⟨es, (c : ℤ), mH, en⟩ =
        (some (es.get ⟨c + 1, by omega⟩), ⟨es, ((c + 1 : ℕ) : ℤ), mH, en⟩) := by
      unfold redo canRedo
      rw [if_neg (by simp; omega), show ((c : ℤ) + 1) = ((c + 1 : ℕ) : ℤ) by omega]
      simp only [Int.toNat_natCast,
        List.getElem?_eq_getElem (show c + 1 < es.length by omega)]
      rfl
    unfold redoTimes
    rw [hstep]
    dsimp only
    rw [ih (c + 1) (by omega)]
    have hdrop : es.drop (c + 1) = es.get ⟨c + 1, by omega⟩ :: es.drop (c + 1 + 1) := by
      rw [List.drop_eq_getElem_cons (by omega : c + 1 < es.length)]
      rfl
    dsimp only
    rw [hdrop, List.take_succ_cons, List.map_cons, Prod.mk.injEq]
    refine ⟨rfl, ?_⟩
    congr 1
    omega

/-- After any `push` on an enabled manager (with a sane cursor), the cursor
is at the tail: `redo()` returns null. -/
lemma redo_after_push (m : UndoRedoManager α) (s : α) (a : String) (t : ℤ)
    (hen : m.isEnabled = true) (hc : -1 ≤ m.currentIndex) :
    ((m.push s a t).redo).1 = none := by
  have hcr : (m.push s a t).canRedo = false := by
    unfold push canRedo
    simp only [hen]
    rw [if_neg (by simp)]
    split_ifs with htr hev hev <;>
      (simp only [decide_eq_false_iff_not, List.length_drop, List.length_append,
        List.length_take, List.length_map, List.length_singleton, not_lt]
       omega)
  unfold redo
  rw [hcr]
  simp

/-- `undo` never touches the log, the bound or the enabled flag, and keeps
the cursor at `-1` or above, over any number of calls. -/
lemma undoTimes_inv (k : ℕ) (m : UndoRedoManager α) :
    (undoTimes k m).2.history = m.history ∧
    (undoTimes k m).2.maxHistory = m.maxHistory ∧
    (undoTimes k m).2.isEnabled = m.isEnabled ∧
    (-1 ≤ m.currentIndex → -1 ≤ (undoTimes k m).2.currentIndex) := by
  induction k generalizing m with
  | zero => simp [undoTimes]
  | succ k ih =>
    unfold undoTimes undo
    by_cases h : m.canUndo
    · rw [if_neg (by simpa using h)]
      dsimp only
      have hcu : 0 < m.currentIndex := by
        unfold canUndo at h
        simpa using h
      obtain ⟨i1, i2, i3, i4⟩ := ih { m with currentIndex := m.currentIndex - 1 }
      exact ⟨i1, i2, i3, fun _ => i4 (by dsimp only; omega)⟩
    · rw [if_pos (by simpa using h)]
      exact ih m

end UndoRedoManager

open UndoRedoManager in
/-- C4: on a fresh manager with bound `maxH`, after pushing the snapshots
`ss` (`1 ≤ N = ss.length ≤ maxH`, so nothing is evicted), `undo()` called
`N-1` times returns the stored snapshots in reverse order
(`ss[N-2], …, ss[0]`), then `redo()` called `N-1` times returns
`ss[1], …, ss[N-1]` in forward order, ending back on the most recent
snapshot; and pushing a new snapshot after any number of undos discards the
forward entries, so a subsequent `redo()` returns null. -/
theorem C4_undo_redo_sequence (α : Type) (maxH : ℕ) (ss : List α)
    (h1 : 1 ≤ ss.length) (h2 : ss.length ≤ maxH) :
    ((undoTimes (ss.length - 1) (pushAll (mk' α maxH) ss)).1.map
      (fun o => o.map (·.state))) = (ss.take (ss.length - 1)).reverse.map some ∧
    ((redoTimes (ss.length - 1)
        (undoTimes (ss.length - 1) (pushAll (mk' α maxH) ss)).2).1.map
      (fun o => o.map (·.state))) = (ss.drop 1).map some ∧
    getCurrentState (redoTimes (ss.length - 1)
      (undoTimes (ss.length - 1) (pushAll (mk' α maxH) ss)).2).2 = ss.getLast? ∧
    (∀ (j : ℕ) (x : α) (t : ℤ),
      (((undoTimes j (pushAll (mk' α maxH) ss)).2.push x "UPDATE" t).redo).1 =
        none) := by
  have hM : pushAll (mk' α maxH) ss =
      ⟨ss.map mkEntry, ((ss.length - 1 : ℕ) : ℤ), maxH, true⟩ := by
    rw [pushAll_mk', show ss.length - maxH = 0 by omega]
    simp only [List.drop_zero]
    congr 1
    omega
  have hlen : (ss.map mkEntry).length = ss.length := by simp
  have hundo := undoTimes_spec (ss.map mkEntry) (ss.length - 1) maxH true
    (ss.length - 1) (by omega) (le_refl _)
  rw [Nat.sub_self] at hundo
  have hredo := redoTimes_spec (ss.map mkEntry) 0 maxH true (ss.length - 1)
    (by omega)
  rw [Nat.zero_add] at hredo
  refine ⟨?_, ?_, ?_, ?_⟩
  · rw [hM, hundo]
    simp [← List.map_take, List.map_reverse, List.map_map, Function.comp_def,
      mkEntry]
  · rw [hM, hundo]
    dsimp only
    rw [hredo]
    dsimp only
    rw [List.take_of_length_le (by simp), ← List.map_drop]
    simp [List.map_map, Function.comp_def, mkEntry]
  · rw [hM, hundo]
    dsimp only
    rw [hredo]
    unfold getCurrentState
    dsimp only
    rw [if_pos (by omega)]
    rw [show (((0 + (ss.length - 1) : ℕ) : ℤ)).toNat = ss.length - 1 by omega]
    rw [List.getElem?_eq_getElem (by simp; omega), List.getElem_map,
      List.getLast?_eq_getElem?, List.getElem?_eq_getElem (by omega)]
    rfl
  · intro j x t
    obtain ⟨i1, i2, i3, i4⟩ := undoTimes_inv j (pushAll (mk' α maxH) ss)
    refine redo_after_push _ x "UPDATE" t ?_ ?_
    · rw [i3, hM]
    · refine i4 ?_
      rw [hM]
      dsimp only
      omega

/-- Witness for C4 at `maxH = 3`, `ss = [10, 20, 30]`. -/
theorem C4_witness :
    1 ≤ [10, 20, 30].length ∧ [10, 20, 30].length ≤ 3 ∧
    UndoRedoManager.getCurrentState
      (UndoRedoManager.redoTimes ([10, 20, 30].length - 1)
        (UndoRedoManager.undoTimes ([10, 20, 30].length - 1)
          (UndoRedoManager.pushAll (UndoRedoManager.mk' ℕ 3) [10, 20, 30])).2).2 =
      [10, 20, 30].getLast? :=
  ⟨by decide, by decide,
    (C4_undo_redo_sequence ℕ 3 [10, 20, 30] (by decide) (by decide)).2.2.1⟩

open UndoRedoManager in
/-- C5: pushing `maxH + k` snapshots (`k ≥ 1`, `maxH ≥ 1`) into a fresh
manager with bound `maxH` leaves exactly `maxH` entries in the history, and
the cursor (`currentIndex = maxH - 1`) still addresses the most recently
pushed snapshot. -/
theorem C5_bounded_history (α : Type) (maxH k : ℕ) (ss : List α)
    (hm : 1 ≤ maxH) (hk : 1 ≤ k) (hlen : ss.length = maxH + k) :
    (pushAll (mk' α maxH) ss).history.length = maxH ∧
    (pushAll (mk' α maxH) ss).currentIndex = (maxH : ℤ) - 1 ∧
    getCurrentState (pushAll (mk' α maxH) ss) = ss.getLast? := by
  rw [pushAll_mk']
  have hmin : min (ss.length : ℤ) (maxH : ℤ) = (maxH : ℤ) := by omega
  refine ⟨by dsimp only; rw [List.length_map, List.length_drop]; omega,
    by dsimp only; rw [hmin], ?_⟩
  unfold getCurrentState
  dsimp only
  rw [if_pos (by omega)]
  rw [show (((ss.length : ℤ) ⊓ (maxH : ℤ) - 1)).toNat = maxH - 1 by omega]
  rw [List.getElem?_eq_getElem (by simp; omega), List.getElem_map,
    List.getElem_drop, List.getLast?_eq_getElem?,
    List.getElem?_eq_getElem (by omega)]
  simp only [mkEntry, Option.map_some', Option.some.injEq]
  congr 1
  omega

/-- Witness for C5 at `maxH = 2`, `k = 1`, `ss = [1, 2, 3]`. -/
theorem C5_witness :
    1 ≤ 2 ∧ 1 ≤ 1 ∧ [1, 2, 3].length = 2 + 1 ∧
    (UndoRedoManager.pushAll (UndoRedoManager.mk' ℕ 2) [1, 2, 3]).history.length
      = 2 ∧
    UndoRedoManager.getCurrentState
      (UndoRedoManager.pushAll (UndoRedoManager.mk' ℕ 2) [1, 2, 3]) =
      [1, 2, 3].getLast? :=
  ⟨by decide, by decide, by decide,
    (C5_bounded_history ℕ 2 1 [1, 2, 3] (by decide) (by decide) (by decide)).1,
    (C5_bounded_history ℕ 2 1 [1, 2, 3] (by decide) (by decide) (by decide)).2.2⟩

open UndoRedoManager in
/-- C10: `undo()`/`redo()` never modify the history log, its length, the
`maxHistory` bound or the enabled flag; on a successful call the cursor
moves by exactly one and the returned item is the stored entry at the new
cursor; on a null-returning call nothing changes at all. -/
theorem C10_undo_redo_frame (α : Type) (m : UndoRedoManager α)
    (hlt : m.currentIndex < (m.history.length : ℤ))
    (hge : -1 ≤ m.currentIndex) :
    (m.undo.2.history = m.history ∧ m.undo.2.maxHistory = m.maxHistory ∧
      m.undo.2.isEnabled = m.isEnabled) ∧
    (m.redo.2.history = m.history ∧ m.redo.2.maxHistory = m.maxHistory ∧
      m.redo.2.isEnabled = m.isEnabled) ∧
    (m.canUndo = true →
      m.undo.2.currentIndex = m.currentIndex - 1 ∧
      m.undo.1 = m.history[(m.currentIndex - 1).toNat]? ∧
      m.undo.1.isSome = true) ∧
    (m.canUndo = false → m.undo = (none, m)) ∧
    (m.canRedo = true →
      m.redo.2.currentIndex = m.currentIndex + 1 ∧
      m.redo.1 = m.history[(m.currentIndex + 1).toNat]? ∧
      m.redo.1.isSome = true) ∧
    (m.canRedo = false → m.redo = (none, m)) := by
  refine ⟨?_, ?_, ?_, ?_, ?_, ?_⟩
  · unfold undo
    split_ifs <;> simp
  · unfold redo
    split_ifs <;> simp
  · intro h
    have hcu : 0 < m.currentIndex := by
      unfold canUndo at h
      simpa using h
    unfold undo
    rw [if_neg (by simpa using h)]
    refine ⟨rfl, rfl, ?_⟩
    have hb : (m.currentIndex - 1).toNat < m.history.length := by omega
    dsimp only
    rw [List.getElem?_eq_getElem hb]
    rfl
  · intro h
    unfold undo
    rw [if_pos (by simpa using h)]
  · intro h
    have hcr : m.currentIndex < (m.history.length : ℤ) - 1 := by
      unfold canRedo at h
      simpa using h
    unfold redo
    rw [if_neg (by simpa using h)]
    refine ⟨rfl, rfl, ?_⟩
    have hb : (m.currentIndex + 1).toNat < m.history.length := by omega
    dsimp only
    rw [List.getElem?_eq_getElem hb]
    rfl
  · intro h
    unfold redo
    rw [if_pos (by simpa using h)]

/-- Witness for C10 at a two-entry manager with the cursor on the tail. -/
theorem C10_witness :
    ((⟨[⟨7, "a", 0⟩, ⟨8, "b", 1⟩], 1, 50, true⟩ : UndoRedoManager ℕ).currentIndex
      < (([⟨7, "a", 0⟩, ⟨8, "b", 1⟩] : List (HistoryEntry ℕ)).length : ℤ)) ∧
    (-1 ≤ (⟨[⟨7, "a", 0⟩, ⟨8, "b", 1⟩], 1, 50, true⟩ :
      UndoRedoManager ℕ).currentIndex) ∧
    (⟨[⟨7, "a", 0⟩, ⟨8, "b", 1⟩], 1, 50, true⟩ :
      UndoRedoManager ℕ).undo.2.history = [⟨7, "a", 0⟩, ⟨8, "b", 1⟩] :=
  ⟨by decide, by decide,
    (C10_undo_redo_frame ℕ ⟨[⟨7, "a", 0⟩, ⟨8, "b", 1⟩], 1, 50, true⟩
      (by decide) (by decide)).1.1⟩

end RpPlot
